import Mathlib

/-!
Verification development for the autocd library (Go): directory handoff by
process replacement. The definitions below are a shallow embedding of the
repository code. Strings are modelled as `List Char` (Go strings are byte
sequences; every character relevant to the claims is ASCII). Filesystem and
system-call behaviour is modelled by explicit environments: each environment
field records the outcome the operating system would give for one primitive
call, and the embedded functions consume those outcomes exactly where the Go
code makes the call. Time is modelled in seconds. A Go function that can
crash on some input (nil dereference) is modelled with an `Option` result
where `none` marks the crash.
-/

namespace AutoCD

/-- The single-quote character, written via its code point. -/
def squote : Char := Char.ofNat 39

/-- The double-quote character, written via its code point. -/
def dquote : Char := Char.ofNat 34

/-- The NUL byte. -/
def nulChar : Char := Char.ofNat 0

/-- The backtick character. -/
def btick : Char := Char.ofNat 96

/-! ### Lexical path functions (Go `path/filepath`, Unix rules)

`goClean` embeds `filepath.Clean`: split on the separator, drop empty and
dot components, resolve dot-dot against the component stack (dropping it at
the root, keeping it at the front of a relative path), and rejoin. This is
the component-level statement of the Go buffer algorithm. -/

/-- Split a character list on the slash separator. A list with `n` slashes
yields `n + 1` components. -/
def splitSlash : List Char → List (List Char)
  | [] => [[]]
  | c :: cs =>
    if c = '/' then [] :: splitSlash cs
    else
      match splitSlash cs with
      | h :: t => (c :: h) :: t
      | [] => [[c]]

/-- Process cleaned path components against a stack (held reversed).
Mirrors the element loop of Go `filepath.Clean`. -/
def cleanComponents (rooted : Bool) : List (List Char) → List (List Char) → List (List Char)
  | stack, [] => stack.reverse
  | stack, comp :: rest =>
    if comp = [] ∨ comp = ['.'] then cleanComponents rooted stack rest
    else if comp = ['.', '.'] then
      match stack with
      | [] =>
        if rooted then cleanComponents rooted [] rest
        else cleanComponents rooted [['.', '.']] rest
      | top :: stk =>
        if top = ['.', '.'] then cleanComponents rooted (comp :: top :: stk) rest
        else cleanComponents rooted stk rest
    else cleanComponents rooted (comp :: stack) rest

/-- Join components with slashes. -/
def joinSlash (cs : List (List Char)) : List Char :=
  (cs.intersperse ['/']).flatten

/-- Embedding of Go `filepath.Clean` for Unix paths. -/
def goClean (p : List Char) : List Char :=
  if p = [] then ['.']
  else
    let rooted := p.head? = some '/'
    let comps := cleanComponents rooted [] (splitSlash p)
    if rooted then '/' :: joinSlash comps
    else if comps = [] then ['.']
    else joinSlash comps

/-- Embedding of Go `filepath.IsAbs` for Unix paths. -/
def isAbs (p : List Char) : Bool := p.head? = some '/'

/-- Embedding of Go `filepath.Abs`: an absolute path is cleaned, a relative
path is joined to the working directory with `filepath.Join` (which skips
empty elements and cleans the result). The working directory is supplied by
the environment; `os.Getwd` failure is not modelled. -/
def goAbs (cwd p : List Char) : List Char :=
  if isAbs p then goClean p
  else if cwd = [] then goClean p
  else if p = [] then goClean cwd
  else goClean (cwd ++ '/' :: p)

/-! ### Script generation (current `script.go`)

`sanitizePathForShell` is `strings.ReplaceAll(path, sq, sq dq sq dq sq)`
where `sq` is a single quote and `dq` a double quote: each embedded single
quote is rewritten as the close-quote, quoted-quote, reopen-quote sequence. -/

/-- Embedding of `sanitizePathForShell` from `script.go`. -/
def sanitizePathForShell : List Char → List Char
  | [] => []
  | c :: cs =>
    if c = squote then squote :: dquote :: squote :: dquote :: squote :: sanitizePathForShell cs
    else c :: sanitizePathForShell cs

/-- Tail of the script template: the final `exec` of the quoted
`SHELL_PATH` variable, with trailing newline. -/
def execTail : List Char :=
  "exec ".data ++ [dquote] ++ "$SHELL_PATH".data ++ [dquote] ++ "\n".data

/-- Embedding of `generateUnixScript` from `script.go`: the template of the
`fmt.Sprintf` call, with the two `%s` holes receiving the (already
sanitized) target directory and the shell path between single quotes. -/
def generateUnixScript (targetDir shellPath : List Char) : List Char :=
  "#!/bin/sh\n# autocd transition script - auto-cleanup on exit\ntrap ".data
    ++ [squote] ++ "rm -f ".data ++ [dquote] ++ "$0".data ++ [dquote]
    ++ " 2>/dev/null || true".data ++ [squote]
    ++ " EXIT INT TERM\n\nTARGET_DIR=".data ++ [squote] ++ targetDir ++ [squote]
    ++ "\nSHELL_PATH=".data ++ [squote] ++ shellPath ++ [squote]
    ++ "\n\n# Attempt to change directory with error handling\nif cd ".data
    ++ [dquote] ++ "$TARGET_DIR".data ++ [dquote] ++ " 2>/dev/null; then\n    echo ".data
    ++ [dquote] ++ "Directory changed to: $TARGET_DIR".data ++ [dquote]
    ++ "\nelse\n    echo ".data ++ [dquote] ++ "Warning: Could not change to $TARGET_DIR".data
    ++ [dquote] ++ " >&2\n    echo ".data ++ [dquote] ++ "Continuing in current directory".data
    ++ [dquote] ++ " >&2\nfi\n\n# Replace current process with shell\n".data
    ++ execTail

/-- Shell descriptor, embedding the `ShellInfo` struct (`types.go`). The
string classification field, a display label with no behavioural role in
any claim, is omitted. -/
structure ShellInfo where
  Path : List Char
  ScriptExt : List Char
  IsValid : Bool
deriving DecidableEq, Repr

/-- Embedding of `generateScript` from `script.go`: sanitize the target
directory, then render. The shell path is passed through unsanitized, as in
the source. The Go function returns a nil error on every input, so the
embedding is total. -/
def generateScript (targetDir : List Char) (shell : ShellInfo) : List Char :=
  generateUnixScript (sanitizePathForShell targetDir) shell.Path

/-! ### POSIX shell word evaluation

A reference evaluator for a POSIX shell word, used to state the round-trip
property. Modes: unquoted, inside single quotes, inside double quotes.
Characters that would trigger expansion, escaping, or word splitting
(whitespace, dollar, backtick, backslash, and unquoted metacharacters) are
outside the modelled fragment and yield `none`; inside single quotes every
character except the closing quote is literal, per POSIX. An unterminated
quote also yields `none`. -/

inductive QMode where
  | unq
  | insq
  | indq
deriving DecidableEq, Repr

/-- Characters that end or transform an unquoted word: not modelled. -/
def unqStops : List Char := " \t\n;&|<>()*?".data ++ ['$', '\\', btick]

/-- Characters that are special inside double quotes: not modelled. -/
def dqStops : List Char := ['$', '\\', btick]

/-- One-pass POSIX word evaluator. -/
def shellEvalAux : QMode → List Char → Option (List Char)
  | .unq, [] => some []
  | .unq, c :: cs =>
    if c = squote then shellEvalAux .insq cs
    else if c = dquote then shellEvalAux .indq cs
    else if c ∈ unqStops then none
    else (shellEvalAux .unq cs).map (c :: ·)
  | .insq, [] => none
  | .insq, c :: cs =>
    if c = squote then shellEvalAux .unq cs
    else (shellEvalAux .insq cs).map (c :: ·)
  | .indq, [] => none
  | .indq, c :: cs =>
    if c = dquote then shellEvalAux .unq cs
    else if c ∈ dqStops then none
    else (shellEvalAux .indq cs).map (c :: ·)

/-- Evaluate a whole shell word, starting unquoted. -/
def shellEvalWord (w : List Char) : Option (List Char) :=
  shellEvalAux .unq w

/-- The single-quoted literal form of a string as embedded by the script
generator: an opening quote, the sanitized body, a closing quote. -/
def quotedLiteral (p : List Char) : List Char :=
  squote :: sanitizePathForShell p ++ [squote]

/-! ### Path validation (current `validation.go`)

The filesystem is an environment: `stat` gives the outcome of `os.Stat` and
`readDirOk` the outcome of `os.ReadDir` for each path. The wrapper `osStat`
adds the Go runtime rule that a system call on a string holding a NUL byte
fails with `EINVAL` (never with not-exist), before the environment is
consulted. -/

/-- Metadata returned by a successful stat. -/
structure FileMeta where
  isDir : Bool
deriving DecidableEq, Repr

/-- Outcome of `os.Stat`: success, not-exist, or another error. -/
inductive StatRes where
  | ok (m : FileMeta)
  | notExist
  | err
deriving DecidableEq, Repr

/-- Filesystem environment for validation. -/
structure FsEnv where
  cwd : List Char
  stat : List Char → StatRes
  readDirOk : List Char → Bool

/-- `os.Stat` including the Go syscall layer: a path containing a NUL byte
cannot be passed to the kernel and fails with an error that is not
not-exist. -/
def osStat (env : FsEnv) (p : List Char) : StatRes :=
  if nulChar ∈ p then .err else env.stat p

/-- Validation failures, as distinguished by the source
(`errors.go` sentinel values plus the wrapped stat error). -/
inductive VErr where
  | pathNotFound
  | pathNotDirectory
  | pathNotAccessible
  | securityViolation
  | statError
deriving DecidableEq, Repr

/-- Security levels (`types.go`). -/
inductive SecurityLevel where
  | normal
  | strict
  | permissive
deriving DecidableEq, Repr

/-- Embedding of `isValidUnixPath` (`validation.go`): the path must not
match the class of control characters, `[\x00-\x1f\x7f]`. -/
def isValidUnixPath (p : List Char) : Bool :=
  !(p.any fun c => c.toNat ≤ 0x1f || c.toNat = 0x7f)

/-- Embedding of `validateStrict` (`validation.go`): control-character
allow-list, then the 4096-byte length ceiling. -/
def validateStrict (p : List Char) : Except VErr (List Char) :=
  if !isValidUnixPath p then .error .securityViolation
  else if p.length > 4096 then .error .securityViolation
  else .ok p

/-- Embedding of `validateNormal` (`validation.go`): clean the path, reject
a NUL byte, return the cleaned path. -/
def validateNormal (p : List Char) : Except VErr (List Char) :=
  let cleanPath := goClean p
  if nulChar ∈ p then .error .securityViolation
  else .ok cleanPath

/-- Embedding of `validatePermissive` (`validation.go`). -/
def validatePermissive (p : List Char) : Except VErr (List Char) :=
  .ok (goClean p)

/-- Embedding of `validateTargetPath` (`validation.go`): absolutize, stat,
require a directory, require it to be listable, then apply the
level-specific policy. The `default` arm of the Go switch coincides with
the `SecurityNormal` arm. -/
def validateTargetPath (env : FsEnv) (path : List Char) (level : SecurityLevel) :
    Except VErr (List Char) :=
  let absPath := goAbs env.cwd path
  match osStat env absPath with
  | .notExist => .error .pathNotFound
  | .err => .error .statError
  | .ok m =>
    if !m.isDir then .error .pathNotDirectory
    else if !env.readDirOk absPath then .error .pathNotAccessible
    else
      match level with
      | .strict => validateStrict absPath
      | .normal => validateNormal absPath
      | .permissive => validatePermissive absPath

/-! ### Shell resolution (`shell.go`)

The environment gives the value of the `SHELL` variable (empty when unset),
the outcome of `os.Stat` for each candidate, and the outcome of
`exec.LookPath`. `fileExists` in the source reads the `FileInfo` returned
by `os.Stat` whenever the error is not not-exist; when the stat failed for
another reason that `FileInfo` is nil and the method call crashes the
process, modelled as `none`. -/

/-- Ambient environment for shell detection. -/
structure ShellEnv where
  SHELL : List Char
  statOutcome : List Char → StatRes
  lookPath : List Char → Option (List Char)

/-- Embedding of `fileExists` (`shell.go`): `false` on not-exist, otherwise
the negated directory test on the returned metadata; `none` marks the nil
dereference when the stat error is of another kind. -/
def fileExists (env : ShellEnv) (filename : List Char) : Option Bool :=
  match env.statOutcome filename with
  | .notExist => some false
  | .err => none
  | .ok m => some (!m.isDir)

/-- Embedding of `validateShellOverride` (`shell.go`). An absolute override
is used directly; a name is searched in the path, and a failed search
returns an invalid descriptor at once without statting. -/
def validateShellOverride (env : ShellEnv) (shellOverride : List Char) :
    Option ShellInfo :=
  if isAbs shellOverride then
    (fileExists env shellOverride).map fun b =>
      { Path := shellOverride, ScriptExt := ".sh".data, IsValid := b }
  else
    match env.lookPath shellOverride with
    | some p =>
      (fileExists env p).map fun b =>
        { Path := p, ScriptExt := ".sh".data, IsValid := b }
    | none =>
      some { Path := shellOverride, ScriptExt := ".sh".data, IsValid := false }

/-- Embedding of `detectUnixShell` (`shell.go`): substitute the POSIX
fallback only when `SHELL` is empty, then stat whatever was chosen. -/
def detectUnixShell (env : ShellEnv) : Option ShellInfo :=
  let shell := if env.SHELL = [] then "/bin/sh".data else env.SHELL
  (fileExists env shell).map fun b =>
    { Path := shell, ScriptExt := ".sh".data, IsValid := b }

/-- Embedding of `detectShell` (`shell.go`). -/
def detectShell (env : ShellEnv) (shellOverride : List Char) : Option ShellInfo :=
  if shellOverride ≠ [] then validateShellOverride env shellOverride
  else detectUnixShell env

/-! ### Process replacement (current `execute.go`) -/

/-- An `execve` request: the program and its argument vector. -/
structure ExecCall where
  exe : List Char
  args : List (List Char)
deriving DecidableEq, Repr

/-- Embedding of `executeScript` (current `execute.go`): the interpreter is
the constant `/bin/sh`; the shell descriptor is used only for the debug
message. -/
def executeScript (scriptPath : List Char) (_shell : ShellInfo) : ExecCall :=
  { exe := "/bin/sh".data, args := ["/bin/sh".data, scriptPath] }

/-! ### Script store (`tempfile.go`)

`createTemporaryScript` is a state transformer on a name-indexed file map.
The environment decides the outcome of each primitive: the fresh unique
name chosen by `os.CreateTemp` (or its failure), and whether the write and
the chmod succeed. `os.CreateTemp` creates the file with mode `0600`. -/

/-- A stored file: content and permission bits. -/
structure FileRec where
  content : List Char
  mode : Nat
deriving DecidableEq, Repr

/-- A name-indexed file map. -/
def FsMap : Type := List Char → Option FileRec

/-- Write one entry of a file map. -/
def setFile (fs : FsMap) (p : List Char) (r : FileRec) : FsMap :=
  fun q => if q = p then some r else fs q

/-- Delete one entry of a file map. -/
def removeFile (fs : FsMap) (p : List Char) : FsMap :=
  fun q => if q = p then none else fs q

/-- Outcomes of the store primitives. -/
structure TempEnv where
  sysTempDir : List Char
  createTempResult : List Char → List Char → Option (List Char)
  writeOk : Bool
  chmodOk : Bool

/-- Store failures. -/
inductive TmpErr where
  | createFailed
  | writeFailed
  | chmodFailed
deriving DecidableEq, Repr

/-- Embedding of `createTemporaryScript` (`tempfile.go`): pick the
directory, create a uniquely named file from the `autocd_*` pattern with
mode `0600`, write the content, chmod to `0700`; on a write or chmod
failure remove the file and fail. -/
def createTemporaryScript (env : TempEnv) (content ext tempDir : List Char)
    (fs : FsMap) : Except TmpErr (List Char) × FsMap :=
  match env.createTempResult (if tempDir = [] then env.sysTempDir else tempDir)
      ("autocd_*".data ++ ext) with
  | none => (.error .createFailed, fs)
  | some name =>
    if env.writeOk then
      if env.chmodOk then
        (.ok name,
          setFile (setFile (setFile fs name { content := [], mode := 0o600 })
            name { content := content, mode := 0o600 })
            name { content := content, mode := 0o700 })
      else
        (.error .chmodFailed,
          removeFile (setFile (setFile fs name { content := [], mode := 0o600 })
            name { content := content, mode := 0o600 }) name)
    else
      (.error .writeFailed,
        removeFile (setFile fs name { content := [], mode := 0o600 }) name)

/-! ### Reconciliation pass (`tempfile.go`) -/

/-- One entry of the temporary directory: name, last-modified time in
seconds, and whether `entry.Info()` succeeds. -/
structure TmpEntry where
  name : List Char
  modTime : Int
  statOk : Bool
deriving DecidableEq, Repr

/-- Environment of one reconciliation run: the observation time, the
outcome of `os.ReadDir` on the temp directory, and the outcome of
`os.Remove` per name. -/
structure CleanupEnv where
  now : Int
  readDirOk : Bool
  removeOk : List Char → Bool

/-- Whether `cleanupOldScripts` deletes an entry: the recognizable name
prefix, a stat that succeeds, a modification time strictly before
`now - maxAge`, and a removal that succeeds (removal errors are ignored and
leave the entry in place). -/
def cleanupDeletes (cenv : CleanupEnv) (maxAge : Int) (e : TmpEntry) : Bool :=
  "autocd_".data.isPrefixOf e.name && e.statOk &&
    decide (e.modTime < cenv.now - maxAge) && cenv.removeOk e.name

/-- Embedding of `cleanupOldScripts` (`tempfile.go`) as a transformer of
the temp-directory listing. A `ReadDir` failure returns with no change;
otherwise every entry it decides to delete is removed. -/
def cleanupOldScripts (cenv : CleanupEnv) (maxAge : Int) (entries : List TmpEntry) :
    List TmpEntry :=
  if !cenv.readDirOk then entries
  else entries.filter fun e => !cleanupDeletes cenv maxAge e

/-- The age threshold of the public `CleanupOldScripts` helper
(`tempfile.go`): 24 hours, in seconds. -/
def publicCleanupAge : Int := 24 * 3600

/-! ### Orchestrator (`autocd.go`, the library entry point) -/

/-- Error taxonomy of `types.go`. -/
inductive ErrorType where
  | pathNotFound
  | pathNotDirectory
  | pathNotAccessible
  | shellNotFound
  | scriptGeneration
  | scriptExecution
  | securityViolation
deriving DecidableEq, Repr

/-- Embedding of the kind switch of `newPathValidationError`
(`errors.go`): sentinel errors map to their kinds and anything else, such
as the wrapped stat error, falls to the `ErrorPathNotFound` default. -/
def classifyPathErr : VErr → ErrorType
  | .pathNotDirectory => .pathNotDirectory
  | .pathNotFound => .pathNotFound
  | .pathNotAccessible => .pathNotAccessible
  | .securityViolation => .securityViolation
  | .statError => .pathNotFound

/-- Embedding of the `Options` struct (`types.go`). -/
structure Options where
  shell : List Char
  securityLevel : SecurityLevel
  debugMode : Bool
  tempDir : List Char
  depthWarningThreshold : Int
  disableDepthWarnings : Bool

/-- The defaults installed when a nil `*Options` is passed. -/
def defaultOptions : Options :=
  { shell := [], securityLevel := .normal, debugMode := false, tempDir := [],
    depthWarningThreshold := 15, disableDepthWarnings := false }

/-- Environment of one orchestrated invocation. -/
structure OrchEnv where
  fs : FsEnv
  clean : CleanupEnv
  tempEntries : List TmpEntry
  shellEnv : ShellEnv
  store : TempEnv
  storeFs : FsMap
  execOk : Bool

/-- Steps of the orchestrated pipeline, in the order they run. The cleanup
step records the age threshold, in seconds, that the run passed to
`cleanupOldScripts`. -/
inductive OrchStep where
  | depthCheck
  | cleanupPass (maxAgeSeconds : Int)
  | validateStep
  | detectStep
  | generateStep
  | storeStep
  | execStep
deriving DecidableEq, Repr

/-- Terminal outcome of one invocation: the process image was replaced, a
structured error of some kind was returned, or the process crashed. -/
inductive OrchOutcome where
  | replaced
  | failed (t : ErrorType)
  | crashed
deriving DecidableEq, Repr

/-- Result view of one invocation: the executed step trace, the
temp-directory listing right after the reconciliation pass, and the
terminal outcome. -/
structure OrchResult where
  trace : List OrchStep
  entriesAfterCleanup : List TmpEntry
  outcome : OrchOutcome
deriving Repr

/-- Embedding of `ExitWithDirectoryAdvanced` (`autocd.go`): install the
defaults for a nil options pointer, print the depth diagnostic, run
`cleanupOldScripts` with one hour (non-fatal), validate the target, detect
the shell, generate the script, store it, and replace the process image;
the first failure short-circuits with its structured error kind. The shell
detection step inherits the possible crash of `fileExists`. -/
def exitWithDirectoryAdvanced (env : OrchEnv) (optsIn : Option Options)
    (target : List Char) : OrchResult :=
  let opts := optsIn.getD defaultOptions
  let entries1 := cleanupOldScripts env.clean 3600 env.tempEntries
  let base : List OrchStep := [.depthCheck, .cleanupPass 3600, .validateStep]
  match validateTargetPath env.fs target opts.securityLevel with
  | .error e => ⟨base, entries1, .failed (classifyPathErr e)⟩
  | .ok validatedPath =>
    match detectShell env.shellEnv opts.shell with
    | none => ⟨base ++ [.detectStep], entries1, .crashed⟩
    | some shell =>
      if !shell.IsValid then
        ⟨base ++ [.detectStep], entries1, .failed .shellNotFound⟩
      else
        let scriptContent := generateScript validatedPath shell
        match (createTemporaryScript env.store scriptContent shell.ScriptExt
            opts.tempDir env.storeFs).1 with
        | .error _ =>
          ⟨base ++ [.detectStep, .generateStep, .storeStep], entries1,
            .failed .scriptGeneration⟩
        | .ok _ =>
          if env.execOk then
            ⟨base ++ [.detectStep, .generateStep, .storeStep, .execStep],
              entries1, .replaced⟩
          else
            ⟨base ++ [.detectStep, .generateStep, .storeStep, .execStep],
              entries1, .failed .scriptExecution⟩

/-! ## Theorems -/

theorem squote_ne_dquote : squote ≠ dquote := by decide

theorem dquote_ne_squote : dquote ≠ squote := by decide

theorem squote_not_dqStop : squote ∉ dqStops := by decide

/-- One-step unfolding of the evaluator, unquoted mode. -/
theorem shellEvalAux_unq_cons (c : Char) (cs : List Char) :
    shellEvalAux .unq (c :: cs) =
      if c = squote then shellEvalAux .insq cs
      else if c = dquote then shellEvalAux .indq cs
      else if c ∈ unqStops then none
      else (shellEvalAux .unq cs).map (c :: ·) := rfl

/-- One-step unfolding of the evaluator, single-quote mode. -/
theorem shellEvalAux_insq_cons (c : Char) (cs : List Char) :
    shellEvalAux .insq (c :: cs) =
      if c = squote then shellEvalAux .unq cs
      else (shellEvalAux .insq cs).map (c :: ·) := rfl

/-- One-step unfolding of the evaluator, double-quote mode. -/
theorem shellEvalAux_indq_cons (c : Char) (cs : List Char) :
    shellEvalAux .indq (c :: cs) =
      if c = dquote then shellEvalAux .unq cs
      else if c ∈ dqStops then none
      else (shellEvalAux .indq cs).map (c :: ·) := rfl

/-- Inside single quotes, the sanitized form of `p` is consumed literally:
the evaluator crosses each rewritten quote by closing the quote, reading
the quote character double-quoted, and reopening, and ends back inside
single quotes for the remainder. -/
theorem shellEvalAux_insq_sanitize (p rest : List Char) :
    shellEvalAux .insq (sanitizePathForShell p ++ rest) =
      (shellEvalAux .insq rest).map (p ++ ·) := by
  induction p with
  | nil =>
    simp only [sanitizePathForShell, List.nil_append]
    cases shellEvalAux .insq rest <;> simp
  | cons c cs ih =>
    by_cases hc : c = squote
    · subst hc
      simp only [sanitizePathForShell, eq_self_iff_true, if_true, List.cons_append]
      rw [shellEvalAux_insq_cons, if_pos rfl]
      rw [shellEvalAux_unq_cons, if_neg dquote_ne_squote, if_pos rfl]
      rw [shellEvalAux_indq_cons, if_neg squote_ne_dquote, if_neg squote_not_dqStop]
      rw [shellEvalAux_indq_cons, if_pos rfl]
      rw [shellEvalAux_unq_cons, if_pos rfl]
      rw [ih]
      cases shellEvalAux .insq rest <;> simp
    · simp only [sanitizePathForShell, if_neg hc, List.cons_append]
      rw [shellEvalAux_insq_cons, if_neg hc, ih]
      cases shellEvalAux .insq rest <;> simp

/-- The quoted literal of any string evaluates back to that string. -/
theorem shellEvalWord_quotedLiteral (p : List Char) :
    shellEvalWord (quotedLiteral p) = some p := by
  show shellEvalAux .unq (squote :: (sanitizePathForShell p ++ [squote])) = some p
  rw [shellEvalAux_unq_cons, if_pos rfl, shellEvalAux_insq_sanitize]
  rw [shellEvalAux_insq_cons, if_pos rfl]
  show (shellEvalAux .unq []).map (p ++ ·) = some p
  simp [shellEvalAux]

/-- C1 (amended): for every target path containing a single quote, the
single-quoted literal that the script generator embeds (each quote
rewritten to the close-quote, quoted-quote, reopen-quote sequence)
evaluates under POSIX shell parsing to exactly the original path; the
target directory hole of the template receives exactly this sanitized
form. The shell descriptor path, however, is embedded verbatim between
single quotes, without the rewriting. -/
theorem c1_singleQuoteRoundTrip (p : List Char) (h : squote ∈ p) :
    shellEvalWord (quotedLiteral p) = some p ∧
    ∀ shell : ShellInfo,
      generateScript p shell =
        generateUnixScript (sanitizePathForShell p) shell.Path :=
  ⟨shellEvalWord_quotedLiteral p, fun _ => rfl⟩

theorem c1_singleQuoteRoundTrip_witness :
    squote ∈ ['a', squote, 'b'] ∧
    (shellEvalWord (quotedLiteral ['a', squote, 'b']) = some ['a', squote, 'b'] ∧
      ∀ shell : ShellInfo,
        generateScript ['a', squote, 'b'] shell =
          generateUnixScript (sanitizePathForShell ['a', squote, 'b']) shell.Path) :=
  ⟨by decide, c1_singleQuoteRoundTrip ['a', squote, 'b'] (by decide)⟩

/-- C1 counterexample: the shell descriptor path is not embedded the same
way as the target path. For the shell path `/bin/a'b` the generated script
embeds the raw path between single quotes (first conjunct, definitional),
that raw embedding does not evaluate back to the path (second conjunct:
the word does not even parse, the final quote being unterminated), and the
script differs from the one that the claimed sanitized embedding would
produce (third conjunct). -/
theorem c1_shellPathNotSanitized :
    generateScript "/tmp".data
        { Path := "/bin/a".data ++ [squote] ++ "b".data,
          ScriptExt := ".sh".data, IsValid := true } =
      generateUnixScript (sanitizePathForShell "/tmp".data)
        ("/bin/a".data ++ [squote] ++ "b".data) ∧
    shellEvalWord (squote :: ("/bin/a".data ++ [squote] ++ "b".data) ++ [squote]) =
      none ∧
    generateScript "/tmp".data
        { Path := "/bin/a".data ++ [squote] ++ "b".data,
          ScriptExt := ".sh".data, IsValid := true } ≠
      generateUnixScript (sanitizePathForShell "/tmp".data)
        (sanitizePathForShell ("/bin/a".data ++ [squote] ++ "b".data)) := by
  refine ⟨rfl, by decide, ?_⟩
  decide

/-- C5: process replacement always executes the stored script through the
fixed interpreter `/bin/sh` — the `execve` program and first argument are
the constant `/bin/sh` for every script path and every detected shell —
and the generated script text ends with the `exec` of the quoted
`SHELL_PATH` variable, the only place the detected shell is invoked. -/
theorem c5_execViaFixedInterpreter :
    (∀ (scriptPath : List Char) (shell : ShellInfo),
      executeScript scriptPath shell =
        { exe := "/bin/sh".data, args := ["/bin/sh".data, scriptPath] }) ∧
    ∀ targetDir shellPath : List Char,
      execTail <:+ generateUnixScript targetDir shellPath :=
  ⟨fun _ _ => rfl, fun _ _ => ⟨_, rfl⟩⟩

/-- Concrete environment: `SHELL` names a missing fish shell and no
candidate exists on disk. -/
def c4Env : ShellEnv :=
  { SHELL := "/usr/bin/fish".data,
    statOutcome := fun _ => .notExist,
    lookPath := fun _ => none }

/-- C4 (code bug): with `SHELL=/usr/bin/fish` and that file absent, the
resolver returns a descriptor whose path is still the invalid value, not
the POSIX fallback `/bin/sh`; the test suite
(`TestDetectUnixShell_EdgeCases`) and the spec demand the fallback. -/
theorem c4_invalidShellEnvKept :
    detectUnixShell c4Env =
      some { Path := "/usr/bin/fish".data, ScriptExt := ".sh".data, IsValid := false } ∧
    "/usr/bin/fish".data ≠ "/bin/sh".data := by
  refine ⟨rfl, by decide⟩

/-- Concrete environment: `SHELL` names a path whose stat fails with a
permission error rather than not-exist. -/
def c7Env : ShellEnv :=
  { SHELL := "/root/locked/bash".data,
    statOutcome := fun _ => .err,
    lookPath := fun _ => none }

/-- C7 (code bug): when `os.Stat` of the candidate shell fails for a
reason other than non-existence, `fileExists` calls a method on the nil
metadata value and the process crashes, so the resolver does not return a
descriptor at all (modelled by `none`). -/
theorem c7_resolverCrashOnStatError :
    detectShell c7Env [] = none ∧
    fileExists c7Env "/root/locked/bash".data = none :=
  ⟨rfl, rfl⟩

/-- The shell metacharacters named by the claim: semicolon, pipe,
ampersand, backtick, dollar, parentheses, angle brackets. -/
def unixMetachars : List Char := ";|&$()<>".data ++ [btick]

/-- A successful stat through the wrapper excludes a NUL byte in the
path. -/
theorem osStat_ok_no_nul {env : FsEnv} {p : List Char} {m : FileMeta}
    (h : osStat env p = .ok m) : nulChar ∉ p := by
  intro hn
  simp [osStat, hn] at h

/-- C2 (amended): the shell metacharacters are never a reason for
rejection. Every metacharacter is printable, so it passes the Strict
allow-list (first conjunct). For every existing, accessible directory
whose absolute path contains a metacharacter, Normal validation succeeds
with the cleaned path (second conjunct); Strict validation also succeeds
provided the path is free of control characters and within the 4096-byte
ceiling — the two independent Strict policies that can still reject such a
directory (third conjunct). -/
theorem c2_metacharsNotRejected (env : FsEnv) (p : List Char) (m : Char)
    (hm : m ∈ unixMetachars) (hmem : m ∈ goAbs env.cwd p)
    (hstat : osStat env (goAbs env.cwd p) = .ok { isDir := true })
    (hrd : env.readDirOk (goAbs env.cwd p) = true) :
    (0x1f < m.toNat ∧ m.toNat ≠ 0x7f) ∧
    validateTargetPath env p .normal = .ok (goClean (goAbs env.cwd p)) ∧
    (isValidUnixPath (goAbs env.cwd p) = true → (goAbs env.cwd p).length ≤ 4096 →
      validateTargetPath env p .strict = .ok (goAbs env.cwd p)) := by
  have hnul : nulChar ∉ goAbs env.cwd p := osStat_ok_no_nul hstat
  refine ⟨?_, ?_, ?_⟩
  · fin_cases hm <;> simp [btick] <;> decide
  · simp only [validateTargetPath, hstat, hrd]
    simp [validateNormal, hnul]
  · intro hv hl
    simp only [validateTargetPath, hstat, hrd]
    simp [validateStrict, hv, Nat.not_lt.mpr hl]

theorem c2_metacharsNotRejected_witness :
    ((0x1f < ';'.toNat ∧ ';'.toNat ≠ 0x7f) ∧
      validateTargetPath
          { cwd := "/".data,
            stat := fun q => if q = "/tmp/a;b".data then .ok { isDir := true } else .notExist,
            readDirOk := fun _ => true }
          "/tmp/a;b".data .normal =
        .ok (goClean (goAbs "/".data "/tmp/a;b".data)) ∧
      (isValidUnixPath (goAbs "/".data "/tmp/a;b".data) = true →
        (goAbs "/".data "/tmp/a;b".data).length ≤ 4096 →
        validateTargetPath
            { cwd := "/".data,
              stat := fun q => if q = "/tmp/a;b".data then .ok { isDir := true } else .notExist,
              readDirOk := fun _ => true }
            "/tmp/a;b".data .strict =
          .ok (goAbs "/".data "/tmp/a;b".data))) :=
  c2_metacharsNotRejected
    { cwd := "/".data,
      stat := fun q => if q = "/tmp/a;b".data then .ok { isDir := true } else .notExist,
      readDirOk := fun _ => true }
    "/tmp/a;b".data ';' (by decide) (by decide) (by decide) rfl

/-- Concrete filesystem in which `/tmp/a` followed by the control byte 1
and `;b` is an existing, listable directory. -/
def c2Fs : FsEnv :=
  { cwd := "/".data,
    stat := fun q =>
      if q = "/tmp/a".data ++ [Char.ofNat 1] ++ ";b".data then .ok { isDir := true }
      else .notExist,
    readDirOk := fun _ => true }

/-- C2 counterexample: an existing, accessible directory whose absolute
path contains the metacharacter `;` (together with a control byte) is
rejected by Strict validation with a security violation, so Strict
validation does not accept every such directory as the claim states. -/
theorem c2_strictStillRejectsControlBytes :
    (';' ∈ "/tmp/a".data ++ [Char.ofNat 1] ++ ";b".data) ∧
    osStat c2Fs ("/tmp/a".data ++ [Char.ofNat 1] ++ ";b".data) = .ok { isDir := true } ∧
    c2Fs.readDirOk ("/tmp/a".data ++ [Char.ofNat 1] ++ ";b".data) = true ∧
    validateTargetPath c2Fs ("/tmp/a".data ++ [Char.ofNat 1] ++ ";b".data) .strict =
      .error .securityViolation := by
  refine ⟨by decide, by decide, rfl, by rfl⟩

/-- C3 (amended): the NUL-byte rejection with a security violation lives
in the level-specific validators: `validateNormal` and `validateStrict`
fail with the security-violation kind on every input containing a NUL
byte. `validateTargetPath` itself fails earlier, with the wrapped stat
error (not the security violation), whenever its computed absolute path
still contains the NUL byte. -/
theorem c3_nulRejectedByLevelValidators (p : List Char) (h : nulChar ∈ p) :
    validateNormal p = .error .securityViolation ∧
    validateStrict p = .error .securityViolation ∧
    ∀ (env : FsEnv) (level : SecurityLevel), nulChar ∈ goAbs env.cwd p →
      validateTargetPath env p level = .error .statError := by
  refine ⟨?_, ?_, ?_⟩
  · simp [validateNormal, h]
  · have hv2 : (p.any fun c => c.toNat ≤ 0x1f || c.toNat = 0x7f) = true :=
      List.any_eq_true.mpr ⟨nulChar, h, by decide⟩
    have hv : isValidUnixPath p = false := by
      simp [isValidUnixPath, hv2]
    simp [validateStrict, hv]
  · intro env level hn
    simp [validateTargetPath, osStat, hn]

theorem c3_nulRejectedByLevelValidators_witness :
    validateNormal ("/a".data ++ [nulChar]) = .error .securityViolation ∧
    validateStrict ("/a".data ++ [nulChar]) = .error .securityViolation ∧
    validateTargetPath
        { cwd := "/".data, stat := fun _ => .notExist, readDirOk := fun _ => true }
        ("/a".data ++ [nulChar]) .normal = .error .statError :=
  ⟨(c3_nulRejectedByLevelValidators ("/a".data ++ [nulChar]) (by decide)).1,
   (c3_nulRejectedByLevelValidators ("/a".data ++ [nulChar]) (by decide)).2.1,
   (c3_nulRejectedByLevelValidators ("/a".data ++ [nulChar]) (by decide)).2.2
     { cwd := "/".data, stat := fun _ => .notExist, readDirOk := fun _ => true }
     .normal (by decide)⟩

/-- Concrete filesystem in which `/tmp` is an existing, listable
directory. -/
def c3Fs : FsEnv :=
  { cwd := "/".data,
    stat := fun q => if q = "/tmp".data then .ok { isDir := true } else .notExist,
    readDirOk := fun _ => true }

/-- C3 counterexample: the raw path `/tmp/<NUL>/..` contains a NUL byte,
yet `validateTargetPath` succeeds at both Normal and Strict levels — path
normalization removes the NUL-carrying component before any check sees
it — so validation of a NUL-carrying path does not always fail, let alone
with a security violation. -/
theorem c3_nulPathCanSucceed :
    nulChar ∈ ("/tmp/".data ++ [nulChar] ++ "/..".data) ∧
    validateTargetPath c3Fs ("/tmp/".data ++ [nulChar] ++ "/..".data) .normal =
      .ok "/tmp".data ∧
    validateTargetPath c3Fs ("/tmp/".data ++ [nulChar] ++ "/..".data) .strict =
      .ok "/tmp".data := by
  refine ⟨by decide, by rfl, by rfl⟩

/-- C10: the empty target path resolves to the working directory — the
absolutization of the empty string is the cleaned working directory — and
validation at the Normal level succeeds with the cleaned result whenever
that directory exists, is a directory, and is listable. -/
theorem c10_emptyPathUsesCwd (env : FsEnv) (m : FileMeta)
    (hstat : osStat env (goAbs env.cwd []) = .ok m) (hdir : m.isDir = true)
    (hrd : env.readDirOk (goAbs env.cwd []) = true) :
    goAbs env.cwd [] = goClean env.cwd ∧
    validateTargetPath env [] .normal = .ok (goClean (goAbs env.cwd [])) := by
  have habs : goAbs env.cwd [] = goClean env.cwd := by
    by_cases hc : env.cwd = []
    · simp [goAbs, isAbs, hc]
    · simp [goAbs, isAbs, hc]
  have hnul : nulChar ∉ goAbs env.cwd [] := osStat_ok_no_nul hstat
  refine ⟨habs, ?_⟩
  simp only [validateTargetPath, hstat, hdir, hrd]
  simp [validateNormal, hnul]

theorem c10_emptyPathUsesCwd_witness :
    goAbs "/home/u".data [] = goClean "/home/u".data ∧
    validateTargetPath
        { cwd := "/home/u".data,
          stat := fun q => if q = "/home/u".data then .ok { isDir := true } else .notExist,
          readDirOk := fun _ => true }
        [] .normal = .ok (goClean (goAbs "/home/u".data [])) :=
  c10_emptyPathUsesCwd
    { cwd := "/home/u".data,
      stat := fun q => if q = "/home/u".data then .ok { isDir := true } else .notExist,
      readDirOk := fun _ => true }
    { isDir := true } (by decide) rfl rfl

/-- C6: every temporary script file that `createTemporaryScript`
successfully creates — for every environment, content, extension,
temp-directory argument, and starting file map — is left holding the
written content with permission mode `0700` exactly: owner
read/write/execute, no group or other bits. -/
theorem c6_scriptModeOwnerOnly (env : TempEnv) (content ext tempDir : List Char)
    (fs : FsMap) (p : List Char) (fsAfter : FsMap)
    (h : createTemporaryScript env content ext tempDir fs = (.ok p, fsAfter)) :
    fsAfter p = some { content := content, mode := 0o700 } := by
  unfold createTemporaryScript at h
  split at h
  · simp at h
  · split at h
    · split at h
      · rw [Prod.mk.injEq] at h
        obtain ⟨h1, h2⟩ := h
        obtain rfl : _ = p := Except.ok.inj h1
        subst h2
        simp [setFile]
      · simp at h
    · simp at h

theorem c6_scriptModeOwnerOnly_witness :
    (createTemporaryScript
        { sysTempDir := "/t".data,
          createTempResult := fun _ _ => some "/t/autocd_1.sh".data,
          writeOk := true, chmodOk := true }
        "c".data ".sh".data [] (fun _ => none)).2 "/t/autocd_1.sh".data =
      some { content := "c".data, mode := 0o700 } :=
  c6_scriptModeOwnerOnly
    { sysTempDir := "/t".data,
      createTempResult := fun _ _ => some "/t/autocd_1.sh".data,
      writeOk := true, chmodOk := true }
    "c".data ".sh".data [] (fun _ => none) "/t/autocd_1.sh".data _ rfl

/-- C8 (amended): the reconciliation pass runs once at the start of every
orchestrated invocation, after only the depth diagnostic and before
directory validation; the age threshold it passes there is one hour, 3600
seconds — not the 24-hour default of the public helper — so the entries
surviving the pass are exactly those the one-hour filter keeps. -/
theorem c8_cleanupFirstWithOneHour (env : OrchEnv) (optsIn : Option Options)
    (target : List Char) :
    (exitWithDirectoryAdvanced env optsIn target).trace.take 3 =
      [.depthCheck, .cleanupPass 3600, .validateStep] ∧
    (exitWithDirectoryAdvanced env optsIn target).entriesAfterCleanup =
      cleanupOldScripts env.clean 3600 env.tempEntries := by
  unfold exitWithDirectoryAdvanced
  cases hval : validateTargetPath env.fs target (optsIn.getD defaultOptions).securityLevel with
  | error e => simp [hval, List.take]
  | ok vp =>
    cases hdet : detectShell env.shellEnv (optsIn.getD defaultOptions).shell with
    | none => simp [hval, hdet, List.take]
    | some shell =>
      by_cases hv : shell.IsValid
      · cases hcreate : (createTemporaryScript env.store (generateScript vp shell)
            shell.ScriptExt (optsIn.getD defaultOptions).tempDir env.storeFs).1 with
        | error a => simp [hval, hdet, hv, hcreate, List.take]
        | ok sp =>
          by_cases he : env.execOk <;> simp [hval, hdet, hv, hcreate, he, List.take]
      · simp [hval, hdet, hv, List.take]

/-- Concrete invocation environment whose temp directory holds one autocd
script last modified two hours before the observation time. -/
def c8Env : OrchEnv :=
  { fs := { cwd := "/".data, stat := fun _ => .notExist, readDirOk := fun _ => true },
    clean := { now := 7200, readDirOk := true, removeOk := fun _ => true },
    tempEntries := [{ name := "autocd_old.sh".data, modTime := 0, statOk := true }],
    shellEnv := { SHELL := [], statOutcome := fun _ => .notExist, lookPath := fun _ => none },
    store := { sysTempDir := "/t".data, createTempResult := fun _ _ => none,
               writeOk := true, chmodOk := true },
    storeFs := fun _ => none,
    execOk := false }

/-- C8 counterexample: the orchestrated pass deletes a script aged two
hours — far younger than 24 hours. Under the claimed 24-hour threshold the
deletion test would not fire on it (first conjunct), the entry is two
hours old (second conjunct), yet the invocation leaves the temp listing
empty (third conjunct). -/
theorem c8_twoHourOldScriptDeleted :
    cleanupDeletes c8Env.clean publicCleanupAge
        { name := "autocd_old.sh".data, modTime := 0, statOk := true } = false ∧
    c8Env.clean.now - (0 : Int) < publicCleanupAge ∧
    (exitWithDirectoryAdvanced c8Env none []).entriesAfterCleanup = [] := by
  refine ⟨by decide, by decide, by rfl⟩

/-- C9: the reconciliation pass is idempotent — for every observation
time, every removal oracle, every age threshold, and every temp-directory
listing, a second run straight after the first deletes nothing further:
the listing is already a fixed point. -/
theorem c9_cleanupIdempotent (cenv : CleanupEnv) (maxAge : Int)
    (entries : List TmpEntry) :
    cleanupOldScripts cenv maxAge (cleanupOldScripts cenv maxAge entries) =
      cleanupOldScripts cenv maxAge entries := by
  unfold cleanupOldScripts
  by_cases h : cenv.readDirOk
  · simp only [h, Bool.not_true, Bool.false_eq_true, if_false, List.filter_filter]
    congr 1
    funext e
    cases cleanupDeletes cenv maxAge e <;> rfl
  · simp [h]

end AutoCD
